import Mathlib

/-!
Verification of the `MessageStorageInterface` contract from
`CertifiedSender/include/CertifiedSender/MessageStorageInterface.h`.

The header declares an abstract interface (pure virtual methods) for a
durable, ordered, text-message store, plus the concrete `StoredMessage`
struct.  The struct and the method signatures are embedded directly from
the header; the behaviour of the operations (`createDatabase`, `open`,
`isOpen`, `close`, `store`, `load`, `erase`, `clearDatabase`) is not
implemented in the repository sources available here, so a reference
model is built from the specification's contract and the claims are
settled against it.
-/

namespace CertifiedSender

/-- Embedded from `MessageStorageInterface.h` (struct `StoredMessage`):
a message stored in the database, an `{id, message}` pair.  The C++ `int`
field is modelled as `Int`; no arithmetic that could overflow is performed
on ids in the claims below. -/
structure StoredMessage where
  id : Int
  message : String
  deriving DecidableEq, Repr

/-- Embedded from `MessageStorageInterface.h` line 45: the default
constructor `StoredMessage() : id{0}`.  The `message` field is
default-constructed by `std::string`, which yields the empty string. -/
def StoredMessage.mkDefault : StoredMessage :=
  { id := 0, message := "" }

/-- Embedded from `MessageStorageInterface.h` line 54: the two-argument
constructor `StoredMessage(int id, const std::string& message)`, which
initialises both fields from its arguments. -/
def StoredMessage.mkFrom (id : Int) (message : String) : StoredMessage :=
  { id := id, message := message }

/-- Modelled from the spec (the concrete storage implementation behind
`MessageStorageInterface` is not among the sources): the lifecycle state
of a store instance, `states = {Unmanaged, Open}`.  An `Open` state
carries the ordered list of stored records and the next id the backend
will assign; ids are assigned monotonically at insertion time. -/
inductive DBState where
  | Unmanaged : DBState
  | Open : List StoredMessage → Int → DBState
  deriving DecidableEq, Repr

/-- Modelled from the spec (implementation of `isOpen` is not among the
sources): pure query reflecting the current open/closed state. -/
def isOpen : DBState → Bool
  | DBState.Unmanaged => false
  | DBState.Open _ _ => true

/-- Modelled from the spec (implementation of `close` is not among the
sources): releases the managed database if open; a no-op on an
already-closed instance. -/
def close (_ : DBState) : DBState :=
  DBState.Unmanaged

/-- Modelled from the spec (implementation of `createDatabase` is not
among the sources): creates a new database at `filePath`.  Fails, with no
side effects, if a file already exists at that path or this instance
already manages an open database; on success the new empty database is
open and the file exists.  The filesystem is modelled as the list of
existing file paths.  Returns `(result, filesystem, state)`. -/
def createDatabase (fs : List String) (s : DBState) (filePath : String) :
    Bool × List String × DBState :=
  if fs.contains filePath then (false, fs, s)
  else
    match s with
    | DBState.Open _ _ => (false, fs, s)
    | DBState.Unmanaged => (true, filePath :: fs, DBState.Open [] 1)

/-- Modelled from the spec (implementation of `store` is not among the
sources): appends `message` as a new record; on success returns the newly
assigned unique id.  Fails, with no side effects and no id, if the
database is not open.  Returns `(result, assigned id, state)`. -/
def store (s : DBState) (message : String) : Bool × Option Int × DBState :=
  match s with
  | DBState.Unmanaged => (false, none, s)
  | DBState.Open records nextId =>
      (true, some nextId,
        DBState.Open (records ++ [{ id := nextId, message := message }]) (nextId + 1))

/-- Modelled from the spec (implementation of `load` is not among the
sources): returns every currently stored message in original insertion
order; fails if the database is not open.  Returns `(result, records)`. -/
def load : DBState → Bool × Option (List StoredMessage)
  | DBState.Unmanaged => (false, none)
  | DBState.Open records _ => (true, some records)

/-- Modelled from the spec (implementation of `erase` is not among the
sources): removes the record with the given id; fails, with no side
effects, if no such id exists or the database is not open.  Ids are never
reused after an erase: the next-id counter is unchanged.  Returns
`(result, state)`. -/
def erase (s : DBState) (messageId : Int) : Bool × DBState :=
  match s with
  | DBState.Unmanaged => (false, s)
  | DBState.Open records nextId =>
      if records.any (fun m => m.id == messageId) then
        (true, DBState.Open (records.filter (fun m => m.id != messageId)) nextId)
      else (false, s)

/-- Modelled from the spec (implementation of `clearDatabase` is not
among the sources): removes all records but preserves the database and
its structure (the instance stays open and the id counter is not reset);
fails, with no side effects, if the database is not open.  Returns
`(result, state)`. -/
def clearDatabase : DBState → Bool × DBState
  | DBState.Unmanaged => (false, DBState.Unmanaged)
  | DBState.Open _ nextId => (true, DBState.Open [] nextId)

/-- Stores a whole list of messages in order, collecting each call's
boolean result.  Returns `(results, state)`. -/
def storeAll (s : DBState) (msgs : List String) : List Bool × DBState :=
  match msgs with
  | [] => ([], s)
  | m :: ms =>
      let r := store s m
      let rest := storeAll r.2.2 ms
      (r.1 :: rest.1, rest.2)

/-- The records a run of successful stores appends when the backend's
next id is `n`: message `k` of the list receives id `n + k`. -/
def assignIds : Int → List String → List StoredMessage
  | _, [] => []
  | n, m :: ms => { id := n, message := m } :: assignIds (n + 1) ms

theorem assignIds_messages (n : Int) (msgs : List String) :
    (assignIds n msgs).map StoredMessage.message = msgs := by
  induction msgs generalizing n with
  | nil => rfl
  | cons m ms ih => simp [assignIds, ih]

theorem storeAll_open (msgs : List String) (records : List StoredMessage) (n : Int) :
    storeAll (DBState.Open records n) msgs =
      (List.replicate msgs.length true,
        DBState.Open (records ++ assignIds n msgs) (n + msgs.length)) := by
  induction msgs generalizing records n with
  | nil => simp [storeAll, assignIds]
  | cons m ms ih =>
      simp only [storeAll, store, assignIds, ih, List.length_cons, List.replicate_succ,
        List.append_assoc, List.singleton_append]
      have hn : n + 1 + (ms.length : Int) = n + ((ms.length + 1 : Nat) : Int) := by
        push_cast
        ring
      rw [hn]

/-- C10: The default constructor `StoredMessage()` initialises the id
field to 0 and the message field to the empty string, while the
two-argument constructor `StoredMessage(id, message)` sets the fields to
exactly its arguments. -/
theorem storedMessage_constructors :
    StoredMessage.mkDefault.id = 0 ∧ StoredMessage.mkDefault.message = "" ∧
    ∀ (i : Int) (m : String),
      (StoredMessage.mkFrom i m).id = i ∧ (StoredMessage.mkFrom i m).message = m :=
  ⟨rfl, rfl, fun _ _ => ⟨rfl, rfl⟩⟩

/-- C8: `close()` is idempotent: on an already-closed (Unmanaged)
instance it is a no-op, and `close` after `close` leaves the instance in
exactly the same state as a single `close`. -/
theorem close_idempotent (s : DBState) :
    close DBState.Unmanaged = DBState.Unmanaged ∧ close (close s) = close s :=
  ⟨rfl, rfl⟩

/-- C7: after a successful `clearDatabase()` on an open database, `load`
returns the empty sequence, `isOpen` still returns true, and a subsequent
`store` still succeeds. -/
theorem clearDatabase_preserves_open (records : List StoredMessage) (n : Int) (msg : String) :
    (clearDatabase (DBState.Open records n)).1 = true ∧
    load (clearDatabase (DBState.Open records n)).2 = (true, some []) ∧
    isOpen (clearDatabase (DBState.Open records n)).2 = true ∧
    (store (clearDatabase (DBState.Open records n)).2 msg).1 = true :=
  ⟨rfl, rfl, rfl, rfl⟩

/-- C2: in any state where no database is open (Unmanaged), each of
`store`, `load`, `erase` and `clearDatabase` returns false and leaves the
state — and hence every stored record — unchanged. -/
theorem unmanaged_data_ops_fail (s : DBState) (h : isOpen s = false)
    (msg : String) (mid : Int) :
    store s msg = (false, none, s) ∧ load s = (false, none) ∧
    erase s mid = (false, s) ∧ clearDatabase s = (false, s) := by
  cases s with
  | Unmanaged => exact ⟨rfl, rfl, rfl, rfl⟩
  | Open records n => simp [isOpen] at h

/-- Witness for C2 at the concrete Unmanaged state. -/
theorem unmanaged_data_ops_fail_witness :
    isOpen DBState.Unmanaged = false ∧
    (store DBState.Unmanaged "m" = (false, none, DBState.Unmanaged) ∧
      load DBState.Unmanaged = (false, none) ∧
      erase DBState.Unmanaged 0 = (false, DBState.Unmanaged) ∧
      clearDatabase DBState.Unmanaged = (false, DBState.Unmanaged)) :=
  ⟨rfl, unmanaged_data_ops_fail DBState.Unmanaged rfl "m" 0⟩

/-- C1: all store calls on an open database succeed, and a subsequent
load succeeds and returns the previously present messages followed by the
newly stored messages, in exactly the order of the store calls (FIFO by
insertion).  On a fresh (empty) database the loaded messages are exactly
the stored ones. -/
theorem store_load_fifo (records : List StoredMessage) (n : Int) (msgs : List String) :
    (storeAll (DBState.Open records n) msgs).1 = List.replicate msgs.length true ∧
    (load (storeAll (DBState.Open records n) msgs).2).1 = true ∧
    ∃ l, (load (storeAll (DBState.Open records n) msgs).2).2 = some l ∧
      l.map StoredMessage.message = records.map StoredMessage.message ++ msgs := by
  rw [storeAll_open]
  exact ⟨rfl, rfl, records ++ assignIds n msgs, rfl,
    by simp [List.map_append, assignIds_messages]⟩

/-- C3: `createDatabase(path)` fails, with no side effects, if a file
already exists at the path or the instance already manages an open
database; on success the instance manages a new, empty, open database,
so `isOpen()` afterwards returns true. -/
theorem createDatabase_contract (fs : List String) (s : DBState) (path : String) :
    (fs.contains path = true → createDatabase fs s path = (false, fs, s)) ∧
    (isOpen s = true → createDatabase fs s path = (false, fs, s)) ∧
    (fs.contains path = false → isOpen s = false →
      createDatabase fs s path = (true, path :: fs, DBState.Open [] 1) ∧
      isOpen (createDatabase fs s path).2.2 = true ∧
      load (createDatabase fs s path).2.2 = (true, some [])) := by
  refine ⟨fun h => ?_, fun h => ?_, fun h1 h2 => ?_⟩
  · unfold createDatabase
    rw [if_pos h]
  · cases s with
    | Unmanaged => simp [isOpen] at h
    | Open r m =>
        unfold createDatabase
        cases hc : fs.contains path <;> simp
  · cases s with
    | Open r m => simp [isOpen] at h2
    | Unmanaged =>
        have hcd : createDatabase fs DBState.Unmanaged path =
            (true, path :: fs, DBState.Open [] 1) := by
          unfold createDatabase
          rw [if_neg (by rw [h1]; exact Bool.false_ne_true)]
        exact ⟨hcd, by rw [hcd]; rfl, by rw [hcd]; rfl⟩

/-- Witness for C3: creating a database at a fresh path from the
Unmanaged state succeeds and leaves an empty open database. -/
theorem createDatabase_contract_witness :
    ([] : List String).contains "p" = false ∧ isOpen DBState.Unmanaged = false ∧
    (createDatabase [] DBState.Unmanaged "p" = (true, ["p"], DBState.Open [] 1) ∧
      isOpen (createDatabase [] DBState.Unmanaged "p").2.2 = true ∧
      load (createDatabase [] DBState.Unmanaged "p").2.2 = (true, some [])) :=
  ⟨rfl, rfl, (createDatabase_contract [] DBState.Unmanaged "p").2.2 rfl rfl⟩

/-- C6: erasing an id not present in an open database returns false and
leaves the state — and hence every existing record — unchanged. -/
theorem erase_missing_id (records : List StoredMessage) (n x : Int)
    (h : ∀ m ∈ records, m.id ≠ x) :
    erase (DBState.Open records n) x = (false, DBState.Open records n) := by
  have ha : records.any (fun m => m.id == x) = false := by
    rw [List.any_eq_false]
    intro m hm
    simp [h m hm]
  simp [erase, ha]

/-- Witness for C6: erasing id 2 from a database holding only id 1 fails
and changes nothing. -/
theorem erase_missing_id_witness :
    (∀ m ∈ [StoredMessage.mk 1 "a"], m.id ≠ 2) ∧
    erase (DBState.Open [StoredMessage.mk 1 "a"] 2) 2 =
      (false, DBState.Open [StoredMessage.mk 1 "a"] 2) :=
  ⟨by decide, erase_missing_id [StoredMessage.mk 1 "a"] 2 2 (by decide)⟩

theorem filter_ne_length (records : List StoredMessage) (x : Int)
    (hmem : ∃ m ∈ records, m.id = x)
    (hnodup : (records.map StoredMessage.id).Nodup) :
    (records.filter (fun m => m.id != x)).length + 1 = records.length := by
  induction records with
  | nil => simp at hmem
  | cons r rs ih =>
      simp only [List.map_cons, List.nodup_cons] at hnodup
      obtain ⟨hr, hrs⟩ := hnodup
      by_cases hx : r.id = x
      · have hdrop : (r.id != x) = false := by simp [hx]
        have hall : rs.filter (fun m => m.id != x) = rs := by
          rw [List.filter_eq_self]
          intro m hm
          have hne : m.id ≠ x := by
            intro hEq
            exact hr (by rw [hx, ← hEq]; exact List.mem_map_of_mem StoredMessage.id hm)
          simpa using hne
        simp [List.filter_cons, hdrop, hall]
      · obtain ⟨m, hm, hmx⟩ := hmem
        have hmrs : m ∈ rs := by
          rcases List.mem_cons.mp hm with hEq | hmrs
          · exact absurd (hEq ▸ hmx) hx
          · exact hmrs
        have hlen := ih ⟨m, hmrs, hmx⟩ hrs
        have hkeep : (r.id != x) = true := by simpa using hx
        simp only [List.filter_cons, hkeep, if_true, List.length_cons]
        omega

/-- C5: erasing an id that is present in an open database succeeds and
removes exactly the record bearing that id: a subsequent load succeeds
and returns a subsequence of the previous records (relative order
preserved) that excludes the erased id, includes every other record, and
is exactly one element shorter. -/
theorem erase_removes_exactly (records : List StoredMessage) (n x : Int)
    (hmem : ∃ m ∈ records, m.id = x)
    (hnodup : (records.map StoredMessage.id).Nodup) :
    (erase (DBState.Open records n) x).1 = true ∧
    (load (erase (DBState.Open records n) x).2).1 = true ∧
    ∃ l, (load (erase (DBState.Open records n) x).2).2 = some l ∧
      l.Sublist records ∧
      (∀ m ∈ l, m.id ≠ x) ∧
      (∀ m ∈ records, m.id ≠ x → m ∈ l) ∧
      l.length + 1 = records.length := by
  obtain ⟨m0, hm0, hid0⟩ := hmem
  have ha : records.any (fun m => m.id == x) = true := by
    rw [List.any_eq_true]
    exact ⟨m0, hm0, by simp [hid0]⟩
  have he : erase (DBState.Open records n) x =
      (true, DBState.Open (records.filter (fun m => m.id != x)) n) := by
    simp [erase, ha]
  rw [he]
  refine ⟨rfl, rfl, records.filter (fun m => m.id != x), rfl,
    List.filter_sublist records, ?_, ?_, ?_⟩
  · intro m hm
    have := (List.mem_filter.mp hm).2
    simpa using this
  · intro m hm hne
    exact List.mem_filter.mpr ⟨hm, by simpa using hne⟩
  · exact filter_ne_length records x ⟨m0, hm0, hid0⟩ hnodup

/-- Witness for C5: erasing id 1 from a two-record database removes
exactly that record. -/
theorem erase_removes_exactly_witness :
    (∃ m ∈ [StoredMessage.mk 1 "a", StoredMessage.mk 2 "b"], m.id = 1) ∧
    ([StoredMessage.mk 1 "a", StoredMessage.mk 2 "b"].map StoredMessage.id).Nodup ∧
    ((erase (DBState.Open [StoredMessage.mk 1 "a", StoredMessage.mk 2 "b"] 3) 1).1 = true ∧
      (load (erase (DBState.Open [StoredMessage.mk 1 "a", StoredMessage.mk 2 "b"] 3) 1).2).1 = true ∧
      ∃ l, (load (erase (DBState.Open [StoredMessage.mk 1 "a", StoredMessage.mk 2 "b"] 3) 1).2).2 = some l ∧
        l.Sublist [StoredMessage.mk 1 "a", StoredMessage.mk 2 "b"] ∧
        (∀ m ∈ l, m.id ≠ 1) ∧
        (∀ m ∈ [StoredMessage.mk 1 "a", StoredMessage.mk 2 "b"], m.id ≠ 1 → m ∈ l) ∧
        l.length + 1 = [StoredMessage.mk 1 "a", StoredMessage.mk 2 "b"].length) :=
  ⟨by decide, by decide,
    erase_removes_exactly [StoredMessage.mk 1 "a", StoredMessage.mk 2 "b"] 3 1
      (by decide) (by decide)⟩

/-- A data operation applied to an open database during its history
(`close`/`createDatabase`/`open` would end the database's history). -/
inductive DataOp where
  | store (message : String) : DataOp
  | erase (messageId : Int) : DataOp
  | clearDatabase : DataOp
  deriving DecidableEq, Repr

/-- Runs one data operation, returning the new state and the id assigned
by the operation if it was a successful store (`none` otherwise). -/
def runOp (s : DBState) : DataOp → DBState × Option Int
  | DataOp.store msg =>
      let r := store s msg
      (r.2.2, r.2.1)
  | DataOp.erase mid => ((erase s mid).2, none)
  | DataOp.clearDatabase => ((clearDatabase s).2, none)

/-- The ids assigned by the successful store calls of an operation
history, in the order the calls happened. -/
def assignedIds : DBState → List DataOp → List Int
  | _, [] => []
  | s, op :: ops => (runOp s op).2.toList ++ assignedIds (runOp s op).1 ops

theorem assignedIds_lower_bound (ops : List DataOp)
    (records : List StoredMessage) (n : Int) :
    List.Pairwise (· < ·) (assignedIds (DBState.Open records n) ops) ∧
    ∀ i ∈ assignedIds (DBState.Open records n) ops, n ≤ i := by
  induction ops generalizing records n with
  | nil => exact ⟨List.Pairwise.nil, by simp [assignedIds]⟩
  | cons op ops ih =>
      cases op with
      | store msg =>
          have h := ih (records ++ [{ id := n, message := msg }]) (n + 1)
          simp only [assignedIds, runOp, store, Option.toList_some, List.singleton_append]
          refine ⟨List.Pairwise.cons (fun i hi => ?_) h.1, fun i hi => ?_⟩
          · exact lt_of_lt_of_le (by omega) (h.2 i hi)
          · rcases List.mem_cons.mp hi with rfl | hi2
            · exact le_refl i
            · exact le_trans (by omega) (h.2 i hi2)
      | erase mid =>
          cases hc : records.any (fun m => m.id == mid) with
          | true =>
              simpa [assignedIds, runOp, erase, hc] using
                ih (records.filter (fun m => m.id != mid)) n
          | false =>
              simpa [assignedIds, runOp, erase, hc] using ih records n
      | clearDatabase =>
          simpa [assignedIds, runOp, clearDatabase] using ih [] n

/-- C9: over any history of data operations on a database created by a
successful `createDatabase`, the ids assigned by the successful store
calls are strictly increasing in call order (monotone assignment at
insertion time, an id is never reused after its record is erased or the
database is cleared), and in particular any two distinct store calls
receive different ids. -/
theorem store_ids_unique_monotone (path : String) (ops : List DataOp) :
    List.Pairwise (· < ·)
      (assignedIds (createDatabase [] DBState.Unmanaged path).2.2 ops) ∧
    (assignedIds (createDatabase [] DBState.Unmanaged path).2.2 ops).Nodup := by
  have hcreate : (createDatabase [] DBState.Unmanaged path).2.2 = DBState.Open [] 1 := rfl
  rw [hcreate]
  have h := assignedIds_lower_bound ops [] 1
  exact ⟨h.1, h.1.imp ne_of_lt⟩

/-- Embedded from `MessageStorageInterface.h`: the methods the interface
declares (the C++ method `open` is rendered `openDb`, `open` being a Lean
keyword). -/
inductive ApiOp where
  | createDatabase : ApiOp
  | openDb : ApiOp
  | isOpen : ApiOp
  | close : ApiOp
  | store : ApiOp
  | load : ApiOp
  | erase : ApiOp
  | clearDatabase : ApiOp
  deriving DecidableEq, Repr

/-- The C++ return types occurring in the interface's declarations. -/
inductive CppRetType where
  | bool : CppRetType
  | void : CppRetType
  deriving DecidableEq, Repr

/-- Embedded from the method signatures of `MessageStorageInterface.h`:
`createDatabase`, `open`, `isOpen`, `store`, `load`, `erase` and
`clearDatabase` are declared `virtual bool ...`, while `close` is
declared `virtual void close()` (line 99). -/
def returnType : ApiOp → CppRetType
  | ApiOp.createDatabase => CppRetType.bool
  | ApiOp.openDb => CppRetType.bool
  | ApiOp.isOpen => CppRetType.bool
  | ApiOp.close => CppRetType.void
  | ApiOp.store => CppRetType.bool
  | ApiOp.load => CppRetType.bool
  | ApiOp.erase => CppRetType.bool
  | ApiOp.clearDatabase => CppRetType.bool

/-- C4 counterexample: the claim that every operation of the interface
reports failure via a boolean return value fails at `close`, which the
header declares with return type `void`. -/
theorem returnType_close_not_bool :
    returnType ApiOp.close = CppRetType.void ∧
    ¬ ∀ op : ApiOp, returnType op = CppRetType.bool :=
  ⟨rfl, fun h => absurd (h ApiOp.close) (by decide)⟩

/-- C4 (amended): every operation of the interface other than `close`
reports failure synchronously via a boolean return value; `close` is
declared `void` and in the contract cannot fail (its model is a total
function that is a no-op on a closed instance). -/
theorem fallible_ops_return_bool (op : ApiOp) (h : op ≠ ApiOp.close) :
    returnType op = CppRetType.bool := by
  cases op <;> first | rfl | exact absurd rfl h

/-- Witness for the amended C4 at the `store` operation. -/
theorem fallible_ops_return_bool_witness :
    ApiOp.store ≠ ApiOp.close ∧ returnType ApiOp.store = CppRetType.bool :=
  ⟨by decide, fallible_ops_return_bool ApiOp.store (by decide)⟩

end CertifiedSender
